import Mathlib

/-!
Verification development for the evaluation/comparison pipeline of the
FLAN-T5 dialogue-summarization notebook (src/notebooks/peft_fine_tune.ipynb).

The notebook's own code is embedded directly: the prompt templates of
tokenize_function and of the two evaluation cells, the quantitative
evaluation loop (including its read of the unbound variable idx), the
reference-slicing at the scoring call sites, and the comparison cells that
subtract numpy arrays built from dict values.  The ROUGE metric itself is
computed by the external `evaluate`/`rouge_score` library, whose code is not
part of this repository; it is modelled from the specification's Metric
Scorer contract (spec §4.3).  Scores are rationals (ℚ) standing for the
floating-point values of the source.
-/

namespace PeftFineTune

/-! ## Prompt construction -/

/-- Fixed instruction prefix used by tokenize_function:
`start_prompt = 'Summarize the following conversation.\n\n'`. -/
def start_prompt : String := "Summarize the following conversation.\n\n"

/-- Fixed instruction suffix used by tokenize_function: `end_prompt = '\n\nSummary: '`. -/
def end_prompt : String := "\n\nSummary: "

/-- Prompt built inside tokenize_function for one dialogue:
`start_prompt + dialogue + end_prompt`. -/
def build_prompt (dialogue : String) : String :=
  start_prompt ++ dialogue ++ end_prompt

/-- Prompt built by the qualitative evaluation cell.  The triple-quoted
f-string literal opens with a newline character before the instruction line,
so the resulting string begins with `"\n"`. -/
def qual_eval_prompt (dialogue : String) : String :=
  "\nSummarize the following conversation.\n\n" ++ dialogue ++ "\n\nSummary: "

/-- Prompt built inside the quantitative evaluation loop; the f-string
literal is character-for-character the same as in the qualitative cell. -/
def quant_eval_prompt (dialogue : String) : String :=
  "\nSummarize the following conversation.\n\n" ++ dialogue ++ "\n\nSummary: "

/-! ## ScoreSet and the comparison cells -/

/-- A ScoreSet as the notebook manipulates it: a Python dict from metric
name to score, i.e. an insertion-ordered association list. -/
abbrev ScoreSet : Type := List (String × ℚ)

/-- Elementwise subtraction of two 1-d numpy arrays, with numpy's length-1
broadcasting; arrays of different lengths where neither has length 1 raise a
ValueError, modelled as `none`. -/
def npSub (xs ys : List ℚ) : Option (List ℚ) :=
  if xs.length = ys.length then some (List.zipWith (fun x y => x - y) xs ys)
  else if ys.length = 1 then some (xs.map (fun x => x - ys.headI))
  else if xs.length = 1 then some (ys.map (fun y => xs.headI - y))
  else none

/-- The notebook's comparison cells:
`improvement = np.array(list(a.values())) - np.array(list(b.values()))`,
then each key of `a` is printed with `value * 100`.  The resulting
ComparisonResult pairs `a.keys()` with `100 * improvement` positionally
(`zip` truncates to the shorter sequence, as in Python). -/
def compare (a b : ScoreSet) : Option (List (String × ℚ)) :=
  (npSub (a.map Prod.snd) (b.map Prod.snd)).map
    (fun diffs => List.zipWith (fun k d => (k, 100 * d)) (a.map Prod.fst) diffs)

/-! ## Metric Scorer, modelled from the spec (§4.3)

The metric computation is performed by the external `evaluate`/`rouge_score`
library, which is not part of this repository, so it is modelled from the
specification's Metric Scorer contract. -/

/-- Splits a character list into maximal whitespace-free words. -/
def wordsAux : List Char → List Char → List (List Char)
  | [], acc => if acc = [] then [] else [acc.reverse]
  | c :: cs, acc =>
    if c.isWhitespace then
      if acc = [] then wordsAux cs [] else acc.reverse :: wordsAux cs []
    else wordsAux cs (c :: acc)

/-- Words of a character list. -/
def words (cs : List Char) : List (List Char) := wordsAux cs []

/-- Modelled from the spec: the scorer's tokenization.  A text is split into
whitespace-separated tokens; when `use_stemmer` is set, every token is
reduced to a stem by the external Porter-style stemmer, which is passed in
as the function `stem` (spec §4.3: "both candidate and reference tokens are
reduced to a stem before n-gram/LCS matching"). -/
def tokenize (stem : String → String) (use_stemmer : Bool) (text : String) : List String :=
  let toks := (words text.toList).map (fun cs => String.mk cs)
  if use_stemmer then toks.map stem else toks

/-- Contiguous n-grams of a token list. -/
def ngrams (n : Nat) (toks : List String) : List (List String) :=
  (List.range (toks.length + 1 - n)).map (fun i => (toks.drop i).take n)

/-- F-measure of a precision/recall pair; 0 when both are 0. -/
def fmeasure (p r : ℚ) : ℚ := if p + r = 0 then 0 else 2 * p * r / (p + r)

/-- Modelled from the spec: F-measure over the n-gram multiset overlap
between candidate and reference (spec §4.3, unigram-overlap for n = 1 and
bigram-overlap for n = 2).  In ℚ, division by zero yields 0, which matches
the convention that a pair with no n-grams scores 0. -/
def ngramF (n : Nat) (cand ref : List String) : ℚ :=
  fmeasure
    ((((Multiset.ofList (ngrams n cand)) ∩ (Multiset.ofList (ngrams n ref))).card : ℚ) /
      ((ngrams n cand).length : ℚ))
    ((((Multiset.ofList (ngrams n cand)) ∩ (Multiset.ofList (ngrams n ref))).card : ℚ) /
      ((ngrams n ref).length : ℚ))

/-- Length of a longest common subsequence of two token lists. -/
def lcsLen : List String → List String → Nat
  | [], _ => 0
  | _ :: _, [] => 0
  | a :: as, b :: bs =>
    if a = b then lcsLen as bs + 1
    else max (lcsLen (a :: as) bs) (lcsLen as (b :: bs))
termination_by xs ys => xs.length + ys.length
decreasing_by all_goals simp_arith

/-- Modelled from the spec: F-measure based on the longest common
subsequence of tokens between candidate and reference (spec §4.3,
lcs-overlap). -/
def lcsF (cand ref : List String) : ℚ :=
  fmeasure ((lcsLen cand ref : ℚ) / (cand.length : ℚ))
    ((lcsLen cand ref : ℚ) / (ref.length : ℚ))

/-- Modelled from the spec: summary-lcs-overlap, the LCS-based F-measure at
summary level, "treating multi-sentence output as a single sequence; ...
numerically equivalent to lcs-overlap, but the two must be computed
independently" (spec §4.3), hence its own definition. -/
def summaryLcsF (cand ref : List String) : ℚ :=
  fmeasure ((lcsLen cand ref : ℚ) / (cand.length : ℚ))
    ((lcsLen cand ref : ℚ) / (ref.length : ℚ))

/-- Arithmetic mean of a list of rationals (0 for the empty list). -/
def mean (xs : List ℚ) : ℚ := xs.sum / (xs.length : ℚ)

/-- Positional pairing of predictions with references as consumed by the
scoring call sites: the i-th prediction is scored against the i-th
reference. -/
def scorePairs (predictions references : List String) : List (String × String) :=
  predictions.zip references

/-- Modelled from the spec: the Metric Scorer
`score(predictions, references, use_stemmer) -> ScoreSet` (spec §4.3).
Fails (`none`, the LengthMismatch error) when the sequences have different
lengths; otherwise each prediction is paired positionally with its
reference, the four overlap metrics are computed per pair on the tokenized
texts, and each metric is aggregated by arithmetic mean over the batch. -/
def rougeCompute (stem : String → String) (use_stemmer : Bool)
    (predictions references : List String) : Option ScoreSet :=
  if predictions.length = references.length then
    some [("rouge1", mean ((scorePairs predictions references).map
            (fun pr => ngramF 1 (tokenize stem use_stemmer pr.1) (tokenize stem use_stemmer pr.2)))),
          ("rouge2", mean ((scorePairs predictions references).map
            (fun pr => ngramF 2 (tokenize stem use_stemmer pr.1) (tokenize stem use_stemmer pr.2)))),
          ("rougeL", mean ((scorePairs predictions references).map
            (fun pr => lcsF (tokenize stem use_stemmer pr.1) (tokenize stem use_stemmer pr.2)))),
          ("rougeLsum", mean ((scorePairs predictions references).map
            (fun pr => summaryLcsF (tokenize stem use_stemmer pr.1) (tokenize stem use_stemmer pr.2))))]
  else none

/-- The notebook's scoring call sites: every `rouge.compute` call passes
`references=human_baseline_summaries[0:len(predictions)]` and
`use_stemmer=True`, i.e. the references are sliced to the length of the
predictions before the metric is invoked. -/
def scoreStep (stem : String → String) (predictions references : List String) :
    Option ScoreSet :=
  rougeCompute stem true predictions (references.take predictions.length)

/-! ## The quantitative evaluation loop -/

/-- The three model variants compared by the notebook. -/
inductive ModelVariant
  | original
  | instruct
  | peft
deriving DecidableEq

/-- The three summary lists accumulated by the quantitative evaluation loop. -/
structure LoopState where
  original_model_summaries : List String
  instruct_model_summaries : List String
  peft_model_summaries : List String
deriving DecidableEq

/-- The empty lists the loop starts from. -/
def initState : LoopState := ⟨[], [], []⟩

/-- Integer variables bound by earlier notebook cells when the quantitative
evaluation cell is executed fresh from the top: `index = 200` is bound by the
qualitative cell, and no cell anywhere binds `idx`. -/
def freshEnv : List (String × Nat) := [("index", 200)]

/-- The quantitative evaluation loop.  For each dialogue, in input order, the
body first builds the prompt, then evaluates
`human_baseline_text_output = human_baseline_summaries[idx]` — resolving the
name `idx` in the environment (NameError when unbound, IndexError when out of
range; the bound value is used nowhere else) — and then appends one generated
summary per model variant to the three lists.  `gen` is the external
generation capability.  An error carries the state reached so far, so an
error on the first iteration carries `initState`: no summary was generated. -/
def quantLoop (gen : ModelVariant → String → String) (env : List (String × Nat))
    (human : List String) :
    List String → LoopState → Except (String × LoopState) LoopState
  | [], st => Except.ok st
  | d :: ds, st =>
    match List.lookup "idx" env with
    | none => Except.error ("NameError: name idx is not defined", st)
    | some idx =>
      if idx < human.length then
        quantLoop gen env human ds
          ⟨st.original_model_summaries ++ [gen ModelVariant.original (quant_eval_prompt d)],
           st.instruct_model_summaries ++ [gen ModelVariant.instruct (quant_eval_prompt d)],
           st.peft_model_summaries ++ [gen ModelVariant.peft (quant_eval_prompt d)]⟩
      else Except.error ("IndexError: list index out of range", st)

/-- A concrete generation capability used for witnesses: tags the prompt
with the variant. -/
def genW : ModelVariant → String → String
  | ModelVariant.original, p => "O:" ++ p
  | ModelVariant.instruct, p => "I:" ++ p
  | ModelVariant.peft, p => "P:" ++ p

/-! ## Recorded scores of the 10-row evaluation batch

The ROUGE results printed by the notebook's `rouge.compute` cell for the
10-dialogue evaluation batch (the generated summaries themselves are only
displayed truncated, so the scores cannot be recomputed from the repository;
these are the recorded outputs). -/

/-- Recorded ROUGE scores of the original (base) model on the 10-row batch. -/
def original_model_results : ScoreSet :=
  [("rouge1", 0.2566893144878768), ("rouge2", 0.1294486893343586),
   ("rougeL", 0.22765512517993816), ("rougeLsum", 0.23187734563950757)]

/-- Recorded ROUGE scores of the fully fine-tuned (instruct) model on the
10-row batch. -/
def instruct_model_results : ScoreSet :=
  [("rouge1", 0.4015906463624618), ("rouge2", 0.17568542724181807),
   ("rougeL", 0.2874569966059625), ("rougeLsum", 0.2886327613084294)]

/-- Recorded ROUGE scores of the PEFT model on the 10-row batch. -/
def peft_model_results : ScoreSet :=
  [("rouge1", 0.3725351062275605), ("rouge2", 0.12138811933618107),
   ("rougeL", 0.27620639623170606), ("rougeLsum", 0.2758134870822362)]

/-! ## Concrete ScoreSets used in counterexamples -/

/-- A valid ScoreSet over the four canonical metric names. -/
def cexA : ScoreSet :=
  [("rouge1", 1/2), ("rouge2", 1/5), ("rougeL", 3/10), ("rougeLsum", 2/5)]

/-- The same mapping as `cexA` (same key set, same values per key) but in a
different dict insertion order. -/
def cexAshuffled : ScoreSet :=
  [("rouge2", 1/5), ("rouge1", 1/2), ("rougeL", 3/10), ("rougeLsum", 2/5)]

/-- A valid ScoreSet over the four canonical metric names. -/
def cexB : ScoreSet :=
  [("rouge1", 1/10), ("rouge2", 1/5), ("rougeL", 3/10), ("rougeLsum", 2/5)]

/-- A ScoreSet with the same key set as `cexB` but different insertion order
and different values. -/
def cexC : ScoreSet :=
  [("rouge2", 3/10), ("rouge1", 1/2), ("rougeL", 3/10), ("rougeLsum", 2/5)]

/-- A ScoreSet whose fourth metric name differs from the canonical set. -/
def cexD : ScoreSet :=
  [("rouge1", 1/4), ("rouge2", 1/8), ("rougeL", 1/10), ("rougeX", 1/5)]

/-! ## Claim C1 -/

/-- C1: the claim that the prompt template is byte-identical everywhere it is
built, including between the training-time tokenize_function and the
evaluation-time prompt construction, fails on the code: at the dialogue
`"Hi"` both evaluation cells produce the training-time prompt with one extra
leading newline, so the evaluation prompt is not the claimed exact string.
The two evaluation cells do agree with each other byte-for-byte. -/
theorem prompt_template_train_eval_divergence :
    qual_eval_prompt "Hi" = quant_eval_prompt "Hi" ∧
    quant_eval_prompt "Hi" = "\n" ++ build_prompt "Hi" ∧
    quant_eval_prompt "Hi" ≠ build_prompt "Hi" := by
  refine ⟨rfl, by decide, by decide⟩

/-! ## Claim C9 -/

/-- C9: for every string `d` (the empty string included), `build_prompt d`
is defined, contains `d` as an exact contiguous substring (witnessed by the
explicit decomposition `start_prompt ++ d ++ end_prompt`), and is at least
as long as `d`. -/
theorem build_prompt_contains_dialogue (d : String) :
    (∃ pre post, build_prompt d = pre ++ d ++ post) ∧
    d.length ≤ (build_prompt d).length := by
  refine ⟨⟨start_prompt, end_prompt, rfl⟩, ?_⟩
  have h : (build_prompt d).length = start_prompt.length + d.length + end_prompt.length := by
    simp [build_prompt, String.length_append]
  omega

/-! ## Helper lemmas about the modelled scorer -/

/-- The multiset intersection of a multiset with itself is itself. -/
theorem multiset_inter_self {α : Type} [DecidableEq α] (s : Multiset α) : s ∩ s = s :=
  le_antisymm (Multiset.inter_le_left s s) (Multiset.le_inter le_rfl le_rfl)

/-- F-measure of perfect precision and recall is 1. -/
theorem fmeasure_one_one : fmeasure 1 1 = 1 := by norm_num [fmeasure]

/-- F-measure of zero precision and recall is 0. -/
theorem fmeasure_zero_zero : fmeasure 0 0 = 0 := by simp [fmeasure]

/-- Number of n-grams of a token list. -/
theorem length_ngrams (n : Nat) (l : List String) :
    (ngrams n l).length = l.length + 1 - n := by
  simp [ngrams]

/-- Scoring a token list against itself gives n-gram F-measure 1 whenever it
has at least n tokens. -/
theorem ngramF_self (n : Nat) (l : List String) (h : n ≤ l.length) :
    ngramF n l l = 1 := by
  have hlen : (ngrams n l).length ≠ 0 := by rw [length_ngrams]; omega
  have hq : ((ngrams n l).length : ℚ) ≠ 0 := by exact_mod_cast hlen
  unfold ngramF
  rw [multiset_inter_self, Multiset.coe_card, div_self hq, fmeasure_one_one]

/-- An n-gram of `l` consists of elements of `l` and has length n. -/
theorem mem_of_mem_ngrams {g : List String} {n : Nat} {l : List String}
    (hg : g ∈ ngrams n l) : (∀ x ∈ g, x ∈ l) ∧ g.length = n := by
  rcases List.mem_map.mp hg with ⟨i, hi, rfl⟩
  have hi2 : i < l.length + 1 - n := List.mem_range.mp hi
  refine ⟨fun x hx => List.drop_subset i l (List.take_subset n _ hx), ?_⟩
  have h1 : n ≤ l.length - i := by omega
  rw [List.length_take, List.length_drop, Nat.min_eq_left h1]

/-- Token lists with no common token have n-gram F-measure 0 (n ≥ 1). -/
theorem ngramF_disjoint {n : Nat} (hn : 1 ≤ n) (c r : List String)
    (hd : ∀ x ∈ c, x ∉ r) : ngramF n c r = 0 := by
  have hz : (Multiset.ofList (ngrams n c)) ∩ (Multiset.ofList (ngrams n r)) = 0 := by
    rw [Multiset.eq_zero_iff_forall_not_mem]
    intro g hgmem
    have hg := Multiset.mem_inter.mp hgmem
    obtain ⟨hsubc, hlenc⟩ := mem_of_mem_ngrams (Multiset.mem_coe.mp hg.1)
    obtain ⟨hsubr, _⟩ := mem_of_mem_ngrams (Multiset.mem_coe.mp hg.2)
    cases g with
    | nil => simp at hlenc; omega
    | cons x t =>
      exact hd x (hsubc x (List.mem_cons_self x t)) (hsubr x (List.mem_cons_self x t))
  unfold ngramF
  rw [hz]
  simp [fmeasure_zero_zero]

/-- When a token list is too short to have any n-gram, the n-gram F-measure
against anything is 0. -/
theorem ngramF_nil_left (n : Nat) (c r : List String) (h : ngrams n c = []) :
    ngramF n c r = 0 := by
  unfold ngramF
  rw [h]
  simp [fmeasure_zero_zero]

/-- LCS of a list with itself is the whole list. -/
theorem lcsLen_self (l : List String) : lcsLen l l = l.length := by
  induction l with
  | nil => simp [lcsLen]
  | cons a as ih => simp [lcsLen, ih]

/-- LCS of lists with no common element is empty. -/
theorem lcsLen_disjoint (c : List String) :
    ∀ r : List String, (∀ x ∈ c, x ∉ r) → lcsLen c r = 0 := by
  induction c with
  | nil => intro r _; simp [lcsLen]
  | cons a as iha =>
    intro r
    induction r with
    | nil => intro _; simp [lcsLen]
    | cons b bs ihb =>
      intro h
      have hab : a ≠ b := by
        intro he
        exact h a (List.mem_cons_self a as) (he ▸ List.mem_cons_self b bs)
      have h1 : lcsLen (a :: as) bs = 0 :=
        ihb (fun x hx hxb => h x hx (List.mem_cons_of_mem b hxb))
      have h2 : lcsLen as (b :: bs) = 0 :=
        iha (b :: bs) (fun x hx => h x (List.mem_cons_of_mem a hx))
      simp [lcsLen, hab, h1, h2]

/-- LCS F-measure of a non-empty token list against itself is 1. -/
theorem lcsF_self (l : List String) (h : 0 < l.length) : lcsF l l = 1 := by
  have hq : (l.length : ℚ) ≠ 0 := by
    have h2 : l.length ≠ 0 := by omega
    exact_mod_cast h2
  unfold lcsF
  rw [lcsLen_self, div_self hq, fmeasure_one_one]

/-- Summary-level LCS F-measure of a non-empty token list against itself is 1. -/
theorem summaryLcsF_self (l : List String) (h : 0 < l.length) : summaryLcsF l l = 1 := by
  have hq : (l.length : ℚ) ≠ 0 := by
    have h2 : l.length ≠ 0 := by omega
    exact_mod_cast h2
  unfold summaryLcsF
  rw [lcsLen_self, div_self hq, fmeasure_one_one]

/-- LCS F-measure of token lists with no common token is 0. -/
theorem lcsF_disjoint (c r : List String) (hd : ∀ x ∈ c, x ∉ r) : lcsF c r = 0 := by
  unfold lcsF
  rw [lcsLen_disjoint c r hd]
  simp [fmeasure_zero_zero]

/-- Summary-level LCS F-measure of token lists with no common token is 0. -/
theorem summaryLcsF_disjoint (c r : List String) (hd : ∀ x ∈ c, x ∉ r) :
    summaryLcsF c r = 0 := by
  unfold summaryLcsF
  rw [lcsLen_disjoint c r hd]
  simp [fmeasure_zero_zero]

/-- Mean of a one-element list. -/
theorem mean_singleton (x : ℚ) : mean [x] = x := by simp [mean]

/-- Sum of a mapped list whose images are all 1. -/
theorem sum_map_of_all_eq_one {α : Type} :
    ∀ (xs : List α) (f : α → ℚ), (∀ x ∈ xs, f x = 1) → (xs.map f).sum = xs.length := by
  intro xs f
  induction xs with
  | nil => intro _; simp
  | cons a as ih =>
    intro h
    have ha := h a (List.mem_cons_self a as)
    have has := ih (fun x hx => h x (List.mem_cons_of_mem a hx))
    simp [ha, has]
    ring

/-- Mean of a mapped list whose images are all 1 is 1 (non-empty list). -/
theorem mean_map_one {α : Type} (xs : List α) (f : α → ℚ)
    (h1 : ∀ x ∈ xs, f x = 1) (hne : xs ≠ []) : mean (xs.map f) = 1 := by
  have hlen : xs.length ≠ 0 := by simpa [List.length_eq_zero] using hne
  have hnz : (xs.length : ℚ) ≠ 0 := by exact_mod_cast hlen
  unfold mean
  rw [sum_map_of_all_eq_one xs f h1, List.length_map, div_self hnz]

/-- Mean of a mapped list whose images are all 0 is 0. -/
theorem mean_map_zero {α : Type} (xs : List α) (f : α → ℚ)
    (h0 : ∀ x ∈ xs, f x = 0) : mean (xs.map f) = 0 := by
  have hsum : (xs.map f).sum = 0 := by
    apply List.sum_eq_zero
    intro x hx
    rcases List.mem_map.mp hx with ⟨a, ha, rfl⟩
    exact h0 a ha
  unfold mean
  rw [hsum, zero_div]

/-- Zipping a list with itself pairs every element with itself. -/
theorem zip_self {α : Type} (l : List α) : l.zip l = l.map (fun x => (x, x)) := by
  induction l with
  | nil => rfl
  | cons a as ih => simp [ih]

/-! ## Helper lemmas about positional access and lookup -/

/-- An indexed entry of a zipWith, from indexed entries of each input. -/
theorem getElem?_zipWith_some {α β γ : Type} (f : α → β → γ) :
    ∀ (l1 : List α) (l2 : List β) (i : Nat) (x : α) (y : β),
      l1[i]? = some x → l2[i]? = some y → (List.zipWith f l1 l2)[i]? = some (f x y) := by
  intro l1
  induction l1 with
  | nil => intro l2 i x y h1 _; simp at h1
  | cons a as ih =>
    intro l2 i x y h1 h2
    cases l2 with
    | nil => simp at h2
    | cons b bs =>
      cases i with
      | zero =>
        simp at h1 h2
        simp [h1, h2]
      | succ j =>
        simp only [List.getElem?_cons_succ] at h1 h2
        simp only [List.zipWith_cons_cons, List.getElem?_cons_succ]
        exact ih bs j x y h1 h2

/-- On an association list with distinct keys, lookup of the key of the i-th
entry returns the i-th value. -/
theorem lookup_of_getElem?_nodup {β : Type} :
    ∀ (l : List (String × β)) (i : Nat) (k : String) (v : β),
      l[i]? = some (k, v) → (l.map Prod.fst).Nodup → List.lookup k l = some v := by
  intro l
  induction l with
  | nil => intro i k v h _; simp at h
  | cons kv t ih =>
    intro i k v h hnod
    cases kv with
    | mk k1 v1 =>
      simp only [List.map_cons, List.nodup_cons] at hnod
      cases i with
      | zero =>
        simp at h
        obtain ⟨h1, h2⟩ := h
        subst h1
        subst h2
        simp [List.lookup]
      | succ j =>
        have ht : t[j]? = some (k, v) := by simpa using h
        have hmem : k ∈ t.map Prod.fst := by
          have hkv : (k, v) ∈ t := by
            rcases List.getElem?_eq_some.mp ht with ⟨hj, he⟩
            exact he ▸ List.getElem_mem hj
          exact List.mem_map.mpr ⟨(k, v), hkv, rfl⟩
        have hk : (k == k1) = false := by
          apply beq_eq_false_iff_ne.mpr
          intro he
          exact hnod.1 (he ▸ hmem)
        have hstep : List.lookup k ((k1, v1) :: t) = List.lookup k t := by
          simp only [List.lookup, hk]
        rw [hstep]
        exact ih j k v ht hnod.2

/-- The keys of the comparison result are the keys of the first ScoreSet when
the value lists have equal lengths. -/
theorem map_fst_zipWith_pair :
    ∀ (ks : List String) (ds : List ℚ), ds.length = ks.length →
      (List.zipWith (fun k d => (k, 100 * d)) ks ds).map Prod.fst = ks := by
  intro ks
  induction ks with
  | nil => intro ds _; simp
  | cons k kt ih =>
    intro ds h
    cases ds with
    | nil => simp at h
    | cons d dt =>
      simp only [List.length_cons, Nat.add_right_cancel_iff] at h
      simp [ih dt h]

/-- Pairing a key list with negated differences is the element-wise negation
of pairing it with the differences. -/
theorem zipWith_pair_neg :
    ∀ (ks : List String) (xs ys : List ℚ),
      List.zipWith (fun k d => (k, 100 * d)) ks
          (List.zipWith (fun x y => x - y) ys xs) =
        (List.zipWith (fun k d => (k, 100 * d)) ks
            (List.zipWith (fun x y => x - y) xs ys)).map
          (fun kv => (kv.1, -kv.2)) := by
  intro ks
  induction ks with
  | nil => intro xs ys; rfl
  | cons k kt ih =>
    intro xs ys
    cases xs with
    | nil => cases ys <;> rfl
    | cons x xt =>
      cases ys with
      | nil => rfl
      | cons y yt =>
        have hh : (100 : ℚ) * (y - x) = -(100 * (x - y)) := by ring
        simp [ih xt yt, hh]

/-! ## Counterexamples for the comparator claims -/

/-- C3 fails on the code at ScoreSets with equal key sets in different dict
insertion order: `cexA` and `cexAshuffled` are the same mapping (so the
claimed delta for rouge1 is 100 * (1/2 - 1/2) = 0), yet the comparison cell
pairs the values positionally and yields 30 for rouge1. -/
theorem compare_positional_pairing_cex :
    (cexA.map Prod.fst).toFinset = (cexAshuffled.map Prod.fst).toFinset ∧
    ((compare cexA cexAshuffled).bind (fun m => List.lookup "rouge1" m)) = some 30 ∧
    (30 : ℚ) ≠ 100 * (1/2 - 1/2) := by
  refine ⟨by decide, ?_, by norm_num⟩
  norm_num [compare, cexA, cexAshuffled, npSub, List.lookup]

/-- C4 fails on the code: `cexA` and `cexD` have different key sets, yet the
comparison cell produces a result instead of failing — no key check of any
kind is performed. -/
theorem compare_no_key_check_cex :
    (cexA.map Prod.fst).toFinset ≠ (cexD.map Prod.fst).toFinset ∧
    (compare cexA cexD).isSome = true := by
  decide

/-- C5 fails on the code in its antisymmetry half: `cexB` and `cexC` have
equal key sets (in different dict order), the delta for rouge1 in
`compare cexB cexC` is -20, but in `compare cexC cexB` it is 30 rather than
the negation 20. -/
theorem compare_antisym_reorder_cex :
    (cexB.map Prod.fst).toFinset = (cexC.map Prod.fst).toFinset ∧
    ((compare cexB cexC).bind (fun m => List.lookup "rouge1" m)) = some (-20) ∧
    ((compare cexC cexB).bind (fun m => List.lookup "rouge1" m)) = some 30 ∧
    (30 : ℚ) ≠ -(-20 : ℚ) := by
  refine ⟨by decide, ?_, ?_, by norm_num⟩
  · norm_num [compare, cexB, cexC, npSub, List.lookup]
  · norm_num [compare, cexB, cexC, npSub, List.lookup]
    rfl

/-! ## Counterexample for the scorer length-mismatch claim -/

/-- C2 fails on the code: with 1 prediction and 2 references the lengths
differ, yet the notebook's scoring call slices the references to the
prediction count and succeeds instead of failing with LengthMismatch. -/
theorem score_succeeds_on_length_mismatch :
    (["a"] : List String).length ≠ (["a", "b"] : List String).length ∧
    (scoreStep (fun s => s) ["a"] ["a", "b"]).isSome = true := by
  decide

/-! ## Counterexample for the identical-sequences scorer claim -/

/-- C6 fails on the code as stated: for the identical non-empty sequences
`p = r = ["hello"]` the single token admits no bigram, so bigram-overlap is
0, not 1 — the all-metrics-1.0 conclusion needs at least two tokens per
element. -/
theorem rouge_identity_single_token_cex :
    rougeCompute (fun s => s) true ["hello"] ["hello"] =
      some [("rouge1", 1), ("rouge2", 0), ("rougeL", 1), ("rougeLsum", 1)] ∧
    (0 : ℚ) ≠ 1 := by
  refine ⟨?_, by norm_num⟩
  have htok : tokenize (fun s => s) true "hello" = ["hello"] := by decide
  have h1 : ngramF 1 ["hello"] ["hello"] = 1 := ngramF_self 1 _ (by norm_num)
  have h2 : ngramF 2 ["hello"] ["hello"] = 0 := ngramF_nil_left 2 _ _ rfl
  have h3 : lcsF ["hello"] ["hello"] = 1 := lcsF_self _ (by norm_num)
  have h4 : summaryLcsF ["hello"] ["hello"] = 1 := summaryLcsF_self _ (by norm_num)
  unfold rougeCompute scorePairs
  rw [if_pos rfl]
  simp only [List.zip_cons_cons, List.zip_nil_right, List.map_cons, List.map_nil, htok,
    mean_singleton, h1, h2, h3, h4]

/-! ## Claim C2 (amended) -/

/-- C2 (amended): the notebook's scoring call slices the references to
`len(predictions)` before invoking the metric.  Consequently the call fails
only when there are more predictions than references (the mismatch survives
the slicing); when there are more references than predictions, the surplus
references are silently truncated and scoring succeeds on the shortened
pair, contrary to the fail-fast LengthMismatch requirement. -/
theorem score_slices_references (stem : String → String) (p r : List String) :
    scoreStep stem p r = rougeCompute stem true p (r.take p.length) ∧
    (r.length < p.length → scoreStep stem p r = none) ∧
    (p.length ≤ r.length → (scoreStep stem p r).isSome = true) := by
  refine ⟨rfl, ?_, ?_⟩
  · intro h
    unfold scoreStep rougeCompute
    rw [if_neg (by rw [List.length_take]; omega)]
  · intro h
    unfold scoreStep rougeCompute
    rw [if_pos (by rw [List.length_take]; omega)]
    rfl

/-- Witness for score_slices_references at concrete inputs. -/
theorem score_slices_references_witness :
    scoreStep (fun s => s) ["a b"] ["a b", "c d"] =
      rougeCompute (fun s => s) true ["a b"] (["a b", "c d"].take 1) ∧
    scoreStep (fun s => s) ["a", "b"] ["a"] = none ∧
    (scoreStep (fun s => s) ["c"] ["c", "d"]).isSome = true :=
  ⟨(score_slices_references (fun s => s) ["a b"] ["a b", "c d"]).1,
   (score_slices_references (fun s => s) ["a", "b"] ["a"]).2.1 (by decide),
   (score_slices_references (fun s => s) ["c"] ["c", "d"]).2.2 (by decide)⟩

/-! ## Claim C3 (amended) -/

/-- C3 (amended): when the two ScoreSets have identical key sequences (the
same metric names in the same dict insertion order, as any two outputs of the
scorer do), the comparison cell maps each key k to 100 * (a[k] - b[k]); when
the key sets are merely equal as sets but ordered differently, the code
pairs the values positionally and the per-key formula fails
(compare_positional_pairing_cex). -/
theorem compare_equal_key_order (a b : ScoreSet) (i : Nat) (k : String) (va vb : ℚ)
    (hkeys : a.map Prod.fst = b.map Prod.fst)
    (ha : a[i]? = some (k, va)) (hb : b[i]? = some (k, vb))
    (hnodup : (a.map Prod.fst).Nodup) :
    ((compare a b).bind (fun m => List.lookup k m)) = some (100 * (va - vb)) := by
  have hlen : a.length = b.length := by
    have h2 := congrArg List.length hkeys
    simpa using h2
  have hc : compare a b = some (List.zipWith (fun k d => (k, 100 * d)) (a.map Prod.fst)
      (List.zipWith (fun x y => x - y) (a.map Prod.snd) (b.map Prod.snd))) := by
    unfold compare npSub
    rw [if_pos (by simp [hlen])]
    rfl
  rw [hc]
  show List.lookup k (List.zipWith (fun k d => (k, 100 * d)) (a.map Prod.fst)
    (List.zipWith (fun x y => x - y) (a.map Prod.snd) (b.map Prod.snd))) =
      some (100 * (va - vb))
  have hd : (List.zipWith (fun x y => x - y) (a.map Prod.snd) (b.map Prod.snd))[i]? =
      some (va - vb) := by
    apply getElem?_zipWith_some
    · rw [List.getElem?_map, ha]; rfl
    · rw [List.getElem?_map, hb]; rfl
  have hm : (List.zipWith (fun k d => (k, 100 * d)) (a.map Prod.fst)
      (List.zipWith (fun x y => x - y) (a.map Prod.snd) (b.map Prod.snd)))[i]? =
      some (k, 100 * (va - vb)) := by
    apply getElem?_zipWith_some
    · rw [List.getElem?_map, ha]; rfl
    · exact hd
  apply lookup_of_getElem?_nodup _ i _ _ hm
  rw [map_fst_zipWith_pair]
  · exact hnodup
  · simp [hlen]

/-- Witness for compare_equal_key_order on two canonically ordered
ScoreSets. -/
theorem compare_equal_key_order_witness :
    ((compare [("rouge1", (1:ℚ)/2), ("rouge2", 1/5), ("rougeL", 3/10), ("rougeLsum", 2/5)]
        [("rouge1", (2:ℚ)/5), ("rouge2", 1/10), ("rougeL", 1/5), ("rougeLsum", 3/10)]).bind
      (fun m => List.lookup "rouge1" m)) = some (100 * ((1:ℚ)/2 - 2/5)) :=
  compare_equal_key_order _ _ 0 "rouge1" (1/2) (2/5) rfl rfl rfl (by decide)

/-! ## Claim C4 (amended) -/

/-- C4 (amended): the comparison cell never inspects metric names — it
depends on its second argument only through the value list, labels the
result with the first argument's keys, and fails only when the two value
lists have different lengths with neither equal to 1 (a numpy broadcast
error); with equal lengths it produces a positional result even when the key
sets differ. -/
theorem compare_length_based_failure (a b b2 : ScoreSet) :
    (a.length = b.length → (compare a b).isSome = true) ∧
    (a.length ≠ b.length → a.length ≠ 1 → b.length ≠ 1 → compare a b = none) ∧
    (b.map Prod.snd = b2.map Prod.snd → compare a b = compare a b2) := by
  refine ⟨?_, ?_, ?_⟩
  · intro h
    unfold compare npSub
    rw [if_pos (by simp [h])]
    rfl
  · intro h h1 hb1
    unfold compare npSub
    rw [if_neg (by simpa using h), if_neg (by simpa using hb1),
      if_neg (by simpa using h1)]
    rfl
  · intro h
    unfold compare
    rw [h]

/-- Witness for compare_length_based_failure at concrete inputs. -/
theorem compare_length_based_failure_witness :
    (compare [("rouge1", (1:ℚ)/2), ("rouge2", 1/4)] [("rouge1", (1:ℚ)/4), ("rouge2", 1/8)]).isSome
      = true ∧
    compare [("rouge1", (1:ℚ)/2), ("rouge2", 1/4)]
      [("rouge1", (1:ℚ)/4), ("rouge2", 1/8), ("rougeL", 0)] = none ∧
    compare [("rouge1", (1:ℚ)/2), ("rouge2", 1/4)] [("rougeA", (1:ℚ)/4), ("rougeB", 1/8)] =
      compare [("rouge1", (1:ℚ)/2), ("rouge2", 1/4)] [("rouge1", (1:ℚ)/4), ("rouge2", 1/8)] :=
  ⟨(compare_length_based_failure [("rouge1", (1:ℚ)/2), ("rouge2", 1/4)]
      [("rouge1", (1:ℚ)/4), ("rouge2", 1/8)] []).1 rfl,
   (compare_length_based_failure [("rouge1", (1:ℚ)/2), ("rouge2", 1/4)]
      [("rouge1", (1:ℚ)/4), ("rouge2", 1/8), ("rougeL", 0)] []).2.1
      (by decide) (by decide) (by decide),
   (compare_length_based_failure [("rouge1", (1:ℚ)/2), ("rouge2", 1/4)]
      [("rougeA", (1:ℚ)/4), ("rougeB", 1/8)]
      [("rouge1", (1:ℚ)/4), ("rouge2", 1/8)]).2.2 rfl⟩

/-! ## Claim C5 (amended) -/

/-- C5 (amended): comparing a ScoreSet with itself always yields an all-zero
delta on every metric; and when the two ScoreSets have identical key
sequences (same metric names in the same dict order), swapping the arguments
negates the result element-wise.  With key sets that are equal only as sets,
the antisymmetry fails (compare_antisym_reorder_cex). -/
theorem compare_self_zero_and_antisym (a b : ScoreSet)
    (hkeys : a.map Prod.fst = b.map Prod.fst) :
    compare a a = some (a.map (fun kv => (kv.1, 0))) ∧
    compare b a = (compare a b).map (fun m => m.map (fun kv => (kv.1, -kv.2))) := by
  constructor
  · have hself : ∀ (l : ScoreSet),
        List.zipWith (fun k d => (k, 100 * d)) (l.map Prod.fst)
          (List.zipWith (fun x y => x - y) (l.map Prod.snd) (l.map Prod.snd)) =
          l.map (fun kv => (kv.1, 0)) := by
      intro l
      induction l with
      | nil => rfl
      | cons kv t ih => simp [ih]
    have h1 : npSub (a.map Prod.snd) (a.map Prod.snd) =
        some (List.zipWith (fun x y => x - y) (a.map Prod.snd) (a.map Prod.snd)) := by
      unfold npSub
      rw [if_pos rfl]
    unfold compare
    rw [h1]
    exact congrArg some (hself a)
  · have hlen : b.length = a.length := by
      have h2 := congrArg List.length hkeys
      simpa using h2.symm
    have hba : npSub (b.map Prod.snd) (a.map Prod.snd) =
        some (List.zipWith (fun x y => x - y) (b.map Prod.snd) (a.map Prod.snd)) := by
      unfold npSub
      rw [if_pos (by simp [hlen])]
    have hab : npSub (a.map Prod.snd) (b.map Prod.snd) =
        some (List.zipWith (fun x y => x - y) (a.map Prod.snd) (b.map Prod.snd)) := by
      unfold npSub
      rw [if_pos (by simp [hlen])]
    unfold compare
    rw [hba, hab, ← hkeys]
    exact congrArg some (zipWith_pair_neg (a.map Prod.fst) (a.map Prod.snd) (b.map Prod.snd))

/-- Witness for compare_self_zero_and_antisym on the recorded 10-row-batch
ScoreSets (whose key sequences coincide). -/
theorem compare_self_zero_and_antisym_witness :
    compare original_model_results original_model_results =
      some (original_model_results.map (fun kv => (kv.1, 0))) ∧
    compare peft_model_results original_model_results =
      (compare original_model_results peft_model_results).map
        (fun m => m.map (fun kv => (kv.1, -kv.2))) :=
  compare_self_zero_and_antisym original_model_results peft_model_results rfl

/-! ## Claim C6 (amended) -/

/-- C6 (amended): scoring any non-empty sequence against itself yields 1.0
on all four metrics provided every element has at least two tokens (a
single-token element has no bigram and drives bigram-overlap to 0, see
rouge_identity_single_token_cex); and scoring a pair whose token
vocabularies are disjoint in every position after tokenization and the
optional stemming normalization yields 0.0 on all four metrics. -/
theorem rouge_identity_and_disjoint :
    (∀ (stem : String → String) (flag : Bool) (p : List String),
      p ≠ [] → (∀ s ∈ p, 2 ≤ (tokenize stem flag s).length) →
      rougeCompute stem flag p p =
        some [("rouge1", 1), ("rouge2", 1), ("rougeL", 1), ("rougeLsum", 1)]) ∧
    (∀ (stem : String → String) (flag : Bool) (p r : List String),
      p.length = r.length →
      (∀ pr ∈ p.zip r, ∀ t ∈ tokenize stem flag pr.1, t ∉ tokenize stem flag pr.2) →
      rougeCompute stem flag p r =
        some [("rouge1", 0), ("rouge2", 0), ("rougeL", 0), ("rougeLsum", 0)]) := by
  constructor
  · intro stem flag p hne htok
    unfold rougeCompute scorePairs
    rw [if_pos rfl, zip_self]
    simp only [List.map_map]
    have e1 : mean (p.map ((fun pr => ngramF 1 (tokenize stem flag pr.1)
        (tokenize stem flag pr.2)) ∘ fun x => (x, x))) = 1 := by
      refine mean_map_one _ _ ?_ hne
      intro x hx
      show ngramF 1 (tokenize stem flag x) (tokenize stem flag x) = 1
      exact ngramF_self 1 _ (by have h2 := htok x hx; omega)
    have e2 : mean (p.map ((fun pr => ngramF 2 (tokenize stem flag pr.1)
        (tokenize stem flag pr.2)) ∘ fun x => (x, x))) = 1 := by
      refine mean_map_one _ _ ?_ hne
      intro x hx
      show ngramF 2 (tokenize stem flag x) (tokenize stem flag x) = 1
      exact ngramF_self 2 _ (htok x hx)
    have e3 : mean (p.map ((fun pr => lcsF (tokenize stem flag pr.1)
        (tokenize stem flag pr.2)) ∘ fun x => (x, x))) = 1 := by
      refine mean_map_one _ _ ?_ hne
      intro x hx
      show lcsF (tokenize stem flag x) (tokenize stem flag x) = 1
      exact lcsF_self _ (by have h2 := htok x hx; omega)
    have e4 : mean (p.map ((fun pr => summaryLcsF (tokenize stem flag pr.1)
        (tokenize stem flag pr.2)) ∘ fun x => (x, x))) = 1 := by
      refine mean_map_one _ _ ?_ hne
      intro x hx
      show summaryLcsF (tokenize stem flag x) (tokenize stem flag x) = 1
      exact summaryLcsF_self _ (by have h2 := htok x hx; omega)
    rw [e1, e2, e3, e4]
  · intro stem flag p r hlen hd
    unfold rougeCompute scorePairs
    rw [if_pos hlen]
    have e1 : mean ((p.zip r).map (fun pr => ngramF 1 (tokenize stem flag pr.1)
        (tokenize stem flag pr.2))) = 0 := by
      apply mean_map_zero
      intro pr hpr
      exact ngramF_disjoint (by norm_num) _ _ (hd pr hpr)
    have e2 : mean ((p.zip r).map (fun pr => ngramF 2 (tokenize stem flag pr.1)
        (tokenize stem flag pr.2))) = 0 := by
      apply mean_map_zero
      intro pr hpr
      exact ngramF_disjoint (by norm_num) _ _ (hd pr hpr)
    have e3 : mean ((p.zip r).map (fun pr => lcsF (tokenize stem flag pr.1)
        (tokenize stem flag pr.2))) = 0 := by
      apply mean_map_zero
      intro pr hpr
      exact lcsF_disjoint _ _ (hd pr hpr)
    have e4 : mean ((p.zip r).map (fun pr => summaryLcsF (tokenize stem flag pr.1)
        (tokenize stem flag pr.2))) = 0 := by
      apply mean_map_zero
      intro pr hpr
      exact summaryLcsF_disjoint _ _ (hd pr hpr)
    rw [e1, e2, e3, e4]

/-- Witness for rouge_identity_and_disjoint on the specification's own two
scenarios. -/
theorem rouge_identity_and_disjoint_witness :
    rougeCompute (fun s => s) false ["the cat sat", "a dog ran"] ["the cat sat", "a dog ran"] =
      some [("rouge1", 1), ("rouge2", 1), ("rougeL", 1), ("rougeLsum", 1)] ∧
    rougeCompute (fun s => s) false ["a b c"] ["x y z"] =
      some [("rouge1", 0), ("rouge2", 0), ("rougeL", 0), ("rougeLsum", 0)] :=
  ⟨rouge_identity_and_disjoint.1 (fun s => s) false ["the cat sat", "a dog ran"]
      (by decide) (by decide),
   rouge_identity_and_disjoint.2 (fun s => s) false ["a b c"] ["x y z"]
      (by decide) (by decide)⟩

/-! ## The loop in closed form -/

/-- On an environment where `idx` resolves to an in-range value, the loop
succeeds and appends, per dialogue in input order, one generated summary per
model variant. -/
theorem quantLoop_ok (gen : ModelVariant → String → String) (env : List (String × Nat))
    (human : List String) (idx : Nat) (h1 : List.lookup "idx" env = some idx)
    (h2 : idx < human.length) :
    ∀ (ds : List String) (st : LoopState),
      quantLoop gen env human ds st = Except.ok
        ⟨st.original_model_summaries ++
            ds.map (fun x => gen ModelVariant.original (quant_eval_prompt x)),
         st.instruct_model_summaries ++
            ds.map (fun x => gen ModelVariant.instruct (quant_eval_prompt x)),
         st.peft_model_summaries ++
            ds.map (fun x => gen ModelVariant.peft (quant_eval_prompt x))⟩ := by
  intro ds
  induction ds with
  | nil => intro st; simp [quantLoop]
  | cons d dt ih =>
    intro st
    simp only [quantLoop, h1, h2, if_true]
    rw [ih]
    simp [List.append_assoc]

/-! ## Claim C7 -/

/-- C7: with `idx` bound in range, the evaluation loop produces, for every
model variant, its i-th summary from the i-th input dialogue, and the
positional pairing consumed by the scorer matches the i-th prediction of a
variant with the i-th human reference. -/
theorem eval_loop_positional_alignment (gen : ModelVariant → String → String)
    (env : List (String × Nat)) (human ds : List String) (idx i : Nat) (d r : String)
    (h1 : List.lookup "idx" env = some idx) (h2 : idx < human.length)
    (h4 : ds[i]? = some d) (h5 : human[i]? = some r) :
    quantLoop gen env human ds initState = Except.ok
      ⟨ds.map (fun x => gen ModelVariant.original (quant_eval_prompt x)),
       ds.map (fun x => gen ModelVariant.instruct (quant_eval_prompt x)),
       ds.map (fun x => gen ModelVariant.peft (quant_eval_prompt x))⟩ ∧
    (ds.map (fun x => gen ModelVariant.original (quant_eval_prompt x)))[i]? =
      some (gen ModelVariant.original (quant_eval_prompt d)) ∧
    (ds.map (fun x => gen ModelVariant.instruct (quant_eval_prompt x)))[i]? =
      some (gen ModelVariant.instruct (quant_eval_prompt d)) ∧
    (ds.map (fun x => gen ModelVariant.peft (quant_eval_prompt x)))[i]? =
      some (gen ModelVariant.peft (quant_eval_prompt d)) ∧
    (scorePairs (ds.map (fun x => gen ModelVariant.original (quant_eval_prompt x)))
        human)[i]? =
      some (gen ModelVariant.original (quant_eval_prompt d), r) := by
  refine ⟨?_, ?_, ?_, ?_, ?_⟩
  · have hok := quantLoop_ok gen env human idx h1 h2 ds initState
    simpa [initState] using hok
  · rw [List.getElem?_map, h4]; rfl
  · rw [List.getElem?_map, h4]; rfl
  · rw [List.getElem?_map, h4]; rfl
  · unfold scorePairs
    rw [List.zip_eq_zipWith]
    apply getElem?_zipWith_some
    · rw [List.getElem?_map, h4]; rfl
    · exact h5

/-- Witness for eval_loop_positional_alignment on a concrete two-dialogue
batch at index 1. -/
theorem eval_loop_positional_alignment_witness :
    quantLoop genW [("idx", 0)] ["h0", "h1"] ["d0", "d1"] initState = Except.ok
      ⟨["d0", "d1"].map (fun x => genW ModelVariant.original (quant_eval_prompt x)),
       ["d0", "d1"].map (fun x => genW ModelVariant.instruct (quant_eval_prompt x)),
       ["d0", "d1"].map (fun x => genW ModelVariant.peft (quant_eval_prompt x))⟩ ∧
    (["d0", "d1"].map (fun x => genW ModelVariant.original (quant_eval_prompt x)))[1]? =
      some (genW ModelVariant.original (quant_eval_prompt "d1")) ∧
    (["d0", "d1"].map (fun x => genW ModelVariant.instruct (quant_eval_prompt x)))[1]? =
      some (genW ModelVariant.instruct (quant_eval_prompt "d1")) ∧
    (["d0", "d1"].map (fun x => genW ModelVariant.peft (quant_eval_prompt x)))[1]? =
      some (genW ModelVariant.peft (quant_eval_prompt "d1")) ∧
    (scorePairs (["d0", "d1"].map (fun x => genW ModelVariant.original (quant_eval_prompt x)))
        ["h0", "h1"])[1]? =
      some (genW ModelVariant.original (quant_eval_prompt "d1"), "h1") :=
  eval_loop_positional_alignment genW [("idx", 0)] ["h0", "h1"] ["d0", "d1"] 0 1 "d1" "h1"
    rfl (by decide) rfl rfl

/-! ## Claim C10 -/

/-- C10: in a fresh environment (no cell binds `idx`; the qualitative cell
binds only `index`), the quantitative evaluation loop fails on its first
iteration with a name-resolution error for `idx`, carrying the initial state
— no summary has been generated; and the value read from
`human_baseline_summaries[idx]` is dead: whenever `idx` is bound in range,
the loop's outcome does not depend on which value it is bound to. -/
theorem quant_loop_idx_name_error :
    (∀ (gen : ModelVariant → String → String) (human : List String) (d : String)
        (ds : List String),
      quantLoop gen freshEnv human (d :: ds) initState =
        Except.error ("NameError: name idx is not defined", initState)) ∧
    (∀ (gen : ModelVariant → String → String) (env1 env2 : List (String × Nat))
        (human ds : List String) (i1 i2 : Nat) (st : LoopState),
      List.lookup "idx" env1 = some i1 → List.lookup "idx" env2 = some i2 →
      i1 < human.length → i2 < human.length →
      quantLoop gen env1 human ds st = quantLoop gen env2 human ds st) := by
  constructor
  · intro gen human d ds
    rfl
  · intro gen env1 env2 human ds i1 i2 st ha hb hc hd2
    rw [quantLoop_ok gen env1 human i1 ha hc ds st,
      quantLoop_ok gen env2 human i2 hb hd2 ds st]

/-- Witness for quant_loop_idx_name_error: the fresh-environment failure at
a concrete batch, and idx-value independence between bindings 0 and 1. -/
theorem quant_loop_idx_name_error_witness :
    quantLoop genW freshEnv ["h0"] ["d0"] initState =
      Except.error ("NameError: name idx is not defined", initState) ∧
    quantLoop genW [("idx", 0)] ["h0", "h1"] ["d0"] initState =
      quantLoop genW [("idx", 1)] ["h0", "h1"] ["d0"] initState :=
  ⟨quant_loop_idx_name_error.1 genW ["h0"] "d0" [],
   quant_loop_idx_name_error.2 genW [("idx", 0)] [("idx", 1)] ["h0", "h1"] ["d0"] 0 1
     initState rfl rfl (by decide) (by decide)⟩

/-! ## Claim C8 -/

/-- C8: the recorded 10-row-batch unigram-overlap scores are approximately
0.2567 (original model) and 0.4016 (instruct model), and the comparator on
the two recorded ScoreSets yields a positive rouge1 delta of roughly 14.5
percentage points (it equals 14.4901...). -/
theorem regression_fixture_delta :
    |(List.lookup "rouge1" original_model_results).getD 0 - 0.2567| < 0.0001 ∧
    |(List.lookup "rouge1" instruct_model_results).getD 0 - 0.4016| < 0.0001 ∧
    0 < ((compare instruct_model_results original_model_results).bind
      (fun m => List.lookup "rouge1" m)).getD 0 ∧
    |((compare instruct_model_results original_model_results).bind
      (fun m => List.lookup "rouge1" m)).getD 0 - 14.5| < 0.1 := by
  have e1 : (List.lookup "rouge1" original_model_results).getD 0 =
      0.2566893144878768 := rfl
  have e2 : (List.lookup "rouge1" instruct_model_results).getD 0 =
      0.4015906463624618 := rfl
  have e3 : ((compare instruct_model_results original_model_results).bind
      (fun m => List.lookup "rouge1" m)).getD 0 =
      100 * (0.4015906463624618 - 0.2566893144878768) := rfl
  refine ⟨?_, ?_, ?_, ?_⟩
  · rw [e1]; rw [abs_lt]; norm_num
  · rw [e2]; rw [abs_lt]; norm_num
  · rw [e3]; norm_num
  · rw [e3]; rw [abs_lt]; norm_num

end PeftFineTune
